import Mathlib

/-!
Shallow embedding of `mayapy_launcher/__init__.py` (repository
`Muream/mayapy-launcher`).

External effects are passed in as explicit parameters:
  * `installed` stands for the result of `installed_maya_versions()`
    (a registry query, an external collaborator per the spec);
  * probe parameters of type `Except PyErr (Option Version)` stand for
    the outcome of calling one probe function of chain A: `.ok none`
    (probe found nothing), `.ok (some v)` (probe detected version `v`),
    or `.error e` (the probe raised the Python exception `e`);
  * pin-file probes take the text of the found pin file (`none` when no
    pin file exists anywhere along the ancestor walk).

Python exceptions are modelled with `Except` over `PyErr`, which keeps
the exception class and its message.
-/

namespace Mayapy

/-- Python exceptions raised by the launcher code, with their messages.
(Messages follow CPython's wording, except that quote characters are
omitted.) -/
inductive PyErr where
  | valueError (msg : String)
  | typeError (msg : String)
  | indexError (msg : String)
  | runtimeError (msg : String)
  deriving DecidableEq

instance {ε α : Type} [DecidableEq ε] [DecidableEq α] : DecidableEq (Except ε α) := fun a b =>
  match a, b with
  | .error e₁, .error e₂ =>
    if h : e₁ = e₂ then isTrue (by rw [h]) else isFalse fun hh => h (Except.error.inj hh)
  | .ok a₁, .ok a₂ =>
    if h : a₁ = a₂ then isTrue (by rw [h]) else isFalse fun hh => h (Except.ok.inj hh)
  | .error _, .ok _ => isFalse fun hh => Except.noConfusion hh
  | .ok _, .error _ => isFalse fun hh => Except.noConfusion hh

/-- `@dataclass(order=True) class Version`: an ordered triple of ints,
each defaulting to 0. -/
structure Version where
  major : Int := 0
  minor : Int := 0
  patch : Int := 0
  deriving DecidableEq

/-- The comparison produced by `@dataclass(order=True)`: lexicographic
comparison of the field tuples `(major, minor, patch)`. -/
def Version.lt (a b : Version) : Prop :=
  a.major < b.major ∨
    (a.major = b.major ∧
      (a.minor < b.minor ∨ (a.minor = b.minor ∧ a.patch < b.patch)))

instance (a b : Version) : Decidable (Version.lt a b) := by
  unfold Version.lt; exact inferInstance

/-- `Version.__str__`: the f-string `"{major}.{minor}.{patch}"`. -/
def Version.str (v : Version) : String :=
  toString v.major ++ "." ++ toString v.minor ++ "." ++ toString v.patch

/-- `Version.distance`: componentwise absolute difference, returned as a
`Version` (not a scalar). -/
def Version.distance (version_a version_b : Version) : Version :=
  { major := ((version_a.major - version_b.major).natAbs : Int)
    minor := ((version_a.minor - version_b.minor).natAbs : Int)
    patch := ((version_a.patch - version_b.patch).natAbs : Int) }

/-- The numeric value of a nonempty list of decimal digit characters,
as `int()` computes it for a digit string. -/
def digitsToNat (ds : List Char) : Nat :=
  ds.foldl (fun n c => n * 10 + (c.toNat - 48)) 0

/-- One optional group `(.(?P<g>\d+))?` of `Version.regex`, matched
greedily at the front of `r`.  The dot in the source pattern is
unescaped, so it matches any single character except a newline; the
group matches only if that character is followed by at least one digit,
otherwise the whole optional group matches empty and consumes nothing.
Returns the captured digits (if the group participated) and the rest of
the input. -/
def matchOptGroup (r : List Char) : Option Nat × List Char :=
  match r with
  | [] => (none, [])
  | c :: rest =>
    if c = '\n' then (none, c :: rest)
    else
      let ds := rest.takeWhile Char.isDigit
      if ds = [] then (none, c :: rest)
      else (some (digitsToNat ds), rest.dropWhile Char.isDigit)

/-- `Version.parse`.  `re.match` of `(?P<major>\d+)(.(?P<minor>\d+))?(.(?P<patch>\d+))?`
anchored at the start of the string: no match at all raises
`ValueError(f"Invalid version string: {version_str}")`.  On a match the
code runs `int(group_dict["minor"]) or 0` (and likewise for patch), so a
group that did not participate is `None` and `int(None)` raises a
`TypeError` — the `or 0` default is never reached for absent groups. -/
def Version.parse (version_str : String) : Except PyErr Version :=
  let chars := version_str.toList
  let majorDigits := chars.takeWhile Char.isDigit
  if majorDigits = [] then
    .error (.valueError ("Invalid version string: " ++ version_str))
  else
    let r1 := chars.dropWhile Char.isDigit
    let minorGroup := matchOptGroup r1
    let patchGroup := matchOptGroup minorGroup.2
    match minorGroup.1 with
    | none =>
      .error (.typeError
        "int() argument must be a string, a bytes-like object or a real number, not NoneType")
    | some minorVal =>
      match patchGroup.1 with
      | none =>
        .error (.typeError
          "int() argument must be a string, a bytes-like object or a real number, not NoneType")
      | some patchVal =>
        .ok { major := (digitsToNat majorDigits : Int), minor := (minorVal : Int),
              patch := (patchVal : Int) }

/-- The module-level dict `py_to_maya_map`, as an insertion-ordered
association list. -/
def py_to_maya_map : List (String × Int) :=
  [("2.7.11", 2019), ("2.7.18", 2020), ("3.7.9", 2022), ("3.9.7", 2023)]

/-- `dict.get`: the value of the first (only) entry whose key equals
`key`, or `none`. -/
def mapGet : List (String × Int) → String → Option Int
  | [], _ => none
  | (k, val) :: rest, key => if key = k then some val else mapGet rest key

/-- The keys of `py_to_maya_map`, each run through `Version.parse`, in
insertion order — what the loop in `pyver_to_mayaver` iterates over.
(All four keys parse successfully; see `py_to_maya_keys_eq`.) -/
def py_to_maya_keys : List Version :=
  (py_to_maya_map.map Prod.fst).filterMap fun s => (Version.parse s).toOption

/-- `ensure_installed`: returns the version if it is a member of the
installed list, else `None`.  The argument is optional in the source
(`maya_version in installed_maya_versions()` is false for `None` since
the list holds ints). -/
def ensure_installed (installed : List Int) (maya_version : Option Int) : Option Int :=
  match maya_version with
  | some v => if v ∈ installed then some v else none
  | none => none

/-- One iteration step of the closest-key loop in `pyver_to_mayaver`:
`closest_version`/`closest_distance` start as `None`; a later key
replaces the current closest only when its distance is strictly smaller
under the dataclass (lexicographic) order. -/
def closestStep (v : Version) (acc : Option (Version × Version)) (k : Version) :
    Option (Version × Version) :=
  match acc with
  | none => some (k, Version.distance v k)
  | some (c, cd) =>
    if Version.lt (Version.distance v k) cd then some (k, Version.distance v k)
    else some (c, cd)

/-- The whole closest-key loop of `pyver_to_mayaver` over a key list. -/
def selectClosest (v : Version) (ks : List Version) : Option (Version × Version) :=
  ks.foldl (closestStep v) none

/-- Reference recursion equivalent to the loop: minimum-distance element
of `c :: ks`, keeping the earlier element on ties. -/
def runMin (v c : Version) : List Version → Version
  | [] => c
  | k :: ks =>
    if Version.lt (Version.distance v k) (Version.distance v c) then runMin v k ks
    else runMin v c ks

/-- `pyver_to_mayaver`: find the map key closest to the input (first-seen
wins on ties); if the closest key agrees with the input in major and
minor, look up the exact string `str(python_version)` in the map and
confirm installation; otherwise (or on any failure) return `None`. -/
def pyver_to_mayaver (installed : List Int) (python_version : Version) : Option Int :=
  match selectClosest python_version py_to_maya_keys with
  | none => none
  | some (closest_version, _closest_distance) =>
    if python_version.major = closest_version.major ∧
        python_version.minor = closest_version.minor then
      match ensure_installed installed
          (mapGet py_to_maya_map (Version.str python_version)) with
      | some maya_version => some maya_version
      | none => none
    else none

/-- `parent_dirs`.  A resolved absolute path is modelled as the list of
its components below the anchor, innermost first; `[]` is the anchor
(the filesystem root or a drive root).  `PurePath.parent` returns `self`
— the identical object — exactly when the path is its own anchor, which
is what the loop's `path.parent is path` identity test detects, so the
walk stops at `[]`. -/
def parent_dirs : List String → List (List String)
  | [] => [[]]
  | c :: cs => (c :: cs) :: parent_dirs cs

/-- Helper for `splitlines`: split the remaining characters at each
newline, `acc` holding the current partial line.  A trailing newline
terminates the last line without starting a new (empty) one, matching
Python. -/
def splitlinesAux : List Char → List Char → List String
  | [], acc => [String.mk acc]
  | '\n' :: [], acc => [String.mk acc]
  | '\n' :: c :: rest, acc => String.mk acc :: splitlinesAux (c :: rest) []
  | c :: rest, acc => splitlinesAux rest (acc ++ [c])

/-- `str.splitlines`, for `\n` line endings (the only line separator the
model needs): the empty string yields no lines, and a trailing newline
does not produce a trailing empty line. -/
def splitlines (s : String) : List String :=
  if s.isEmpty then [] else splitlinesAux s.toList []

/-- Python `int(str)`: an optional sign followed by at least one digit
(surrounding whitespace and underscores are not modelled); any other
string raises `ValueError`, modelled as `none`. -/
def pyInt (s : String) : Option Int :=
  match s.toList with
  | [] => none
  | '-' :: ds =>
    if ds ≠ [] ∧ ds.all Char.isDigit then some (-(digitsToNat ds : Int)) else none
  | '+' :: ds =>
    if ds ≠ [] ∧ ds.all Char.isDigit then some (digitsToNat ds : Int) else none
  | ds =>
    if ds.all Char.isDigit then some (digitsToNat ds : Int) else none

/-- `py_version_from_shebang`: a bare `return` — always `None`, never an
error. -/
def py_version_from_shebang : Except PyErr (Option Version) :=
  .ok none

/-- `py_version_from_virtualenv`: if the `VIRTUAL_ENV` environment
variable is set, parse `platform.python_version()` (an exception from
`Version.parse` propagates); otherwise `None`. -/
def py_version_from_virtualenv (virtual_env : Option String)
    (platform_python_version : String) : Except PyErr (Option Version) :=
  match virtual_env with
  | some _ => (Version.parse platform_python_version).map some
  | none => .ok none

/-- `py_version_from_python_version`: `found` is the text of the closest
upstream `.python-version` file, or `none` if no such file exists.  The
code indexes `splitlines()[0]` (IndexError on an empty file) and feeds
it to `Version.parse` (whose exceptions propagate — there is no
try/except in this probe). -/
def py_version_from_python_version (found : Option String) :
    Except PyErr (Option Version) :=
  match found with
  | none => .ok none
  | some text =>
    match splitlines text with
    | [] => .error (.indexError "list index out of range")
    | line0 :: _ =>
      match Version.parse line0 with
      | .ok v => .ok (some v)
      | .error e => .error e

/-- `maya_version_from_maya_version`: like the probe above but the first
line goes through `int()`; an unparsable line raises `ValueError`, an
empty file raises `IndexError`, and neither is caught. -/
def maya_version_from_maya_version (found : Option String) :
    Except PyErr (Option Int) :=
  match found with
  | none => .ok none
  | some text =>
    match splitlines text with
    | [] => .error (.indexError "list index out of range")
    | line0 :: _ =>
      match pyInt line0 with
      | some n => .ok (some n)
      | none =>
        .error (.valueError ("invalid literal for int() with base 10: " ++ line0))

/-- `latest_maya_version`: `max(installed_maya_versions())` — Python's
`max` raises `ValueError` on an empty sequence. -/
def latest_maya_version (installed : List Int) : Except PyErr Int :=
  match installed.max? with
  | some m => .ok m
  | none => .error (.valueError "max() arg is an empty sequence")

/-- The first loop of `resolve_version` over `py_version_resolvers`
(chain A): call each probe in order; a raised exception propagates; a
detected version is fed to `pyver_to_mayaver` and a successful
resolution is returned at once, otherwise the loop continues. -/
def chainA (installed : List Int) :
    List (Except PyErr (Option Version)) → Except PyErr (Option Int)
  | [] => .ok none
  | probe :: rest =>
    match probe with
    | .error e => .error e
    | .ok none => chainA installed rest
    | .ok (some python_version) =>
      match pyver_to_mayaver installed python_version with
      | some maya_version => .ok (some maya_version)
      | none => chainA installed rest

/-- `resolve_version`: chain A first; if it produces nothing, the
`.maya-version` pin probe, then `latest_maya_version`.  The final
`return None` of the source is unreachable: `latest_maya_version` either
raises or returns an int, so the second loop always returns. -/
def resolve_version (probes : List (Except PyErr (Option Version)))
    (mayaPin : Except PyErr (Option Int)) (installed : List Int) :
    Except PyErr (Option Int) :=
  match chainA installed probes with
  | .error e => .error e
  | .ok (some maya_version) => .ok (some maya_version)
  | .ok none =>
    match mayaPin with
    | .error e => .error e
    | .ok (some maya_version) => .ok (some maya_version)
    | .ok none =>
      match latest_maya_version installed with
      | .error e => .error e
      | .ok maya_version => .ok (some maya_version)

/-- `main`, up to the launch: `resolve_version()` runs first (its
exceptions propagate); then, if the first CLI argument parses as an int,
its absolute value overrides the resolved version and the argument is
consumed (a non-int first argument is silently kept); a `None` version
raises `RuntimeError`.  The result models `start_mayapy(version, args)`:
the launched version and the arguments forwarded to it. -/
def main (args : List String) (probes : List (Except PyErr (Option Version)))
    (mayaPin : Except PyErr (Option Int)) (installed : List Int) :
    Except PyErr (Int × List String) :=
  match resolve_version probes mayaPin installed with
  | .error e => .error e
  | .ok resolved =>
    match args with
    | [] =>
      match resolved with
      | none => .error (.runtimeError "No valid mayapy version were found.")
      | some v => .ok (v, [])
    | a0 :: rest =>
      match pyInt a0 with
      | some n => .ok ((n.natAbs : Int), rest)
      | none =>
        match resolved with
        | none => .error (.runtimeError "No valid mayapy version were found.")
        | some v => .ok (v, a0 :: rest)

theorem py_to_maya_keys_eq :
    py_to_maya_keys =
      [{ major := 2, minor := 7, patch := 11 }, { major := 2, minor := 7, patch := 18 },
       { major := 3, minor := 7, patch := 9 }, { major := 3, minor := 9, patch := 7 }] := by
  decide

theorem mapGet_mem : ∀ (m : List (String × Int)) (k : String) (r : Int),
    mapGet m k = some r → (k, r) ∈ m := by
  intro m
  induction m with
  | nil => intro k r h; cases h
  | cons kv rest ih =>
    intro k r h
    obtain ⟨k₀, v₀⟩ := kv
    by_cases hk : k = k₀
    · subst hk
      simp only [mapGet, if_true, eq_self_iff_true, Option.some.injEq] at h
      subst h
      exact List.mem_cons_self _ _
    · simp only [mapGet, if_neg hk] at h
      exact List.mem_cons_of_mem _ (ih k r h)

theorem ensure_installed_some : ∀ (installed : List Int) (o : Option Int) (r : Int),
    ensure_installed installed o = some r → o = some r ∧ r ∈ installed := by
  intro installed o r h
  cases o with
  | none => cases h
  | some v =>
    by_cases hv : v ∈ installed
    · simp only [ensure_installed, if_pos hv, Option.some.injEq] at h
      subst h
      exact ⟨rfl, hv⟩
    · simp only [ensure_installed, if_neg hv] at h
      cases h

/-- Claim C1.  The spec says `parse` succeeds on strings that match the
pattern but omit minor and/or patch, defaulting each absent component to
0, and raises a parse error only on strings that do not match at all.
The code instead computes `int(group_dict["minor"]) or 0`, so an absent
group is `None` and `int(None)` raises `TypeError`: `parse("3.9")` and
`parse("3")` crash rather than returning `Version(3,9,0)` /
`Version(3,0,0)`.  This theorem evaluates the embedded code at the
failing inputs (and checks the fully-specified and no-match cases agree
with the spec). -/
theorem c1_parse_missing_components_crashes :
    Version.parse "3.9" = Except.error (PyErr.typeError
        "int() argument must be a string, a bytes-like object or a real number, not NoneType") ∧
      Version.parse "3" = Except.error (PyErr.typeError
        "int() argument must be a string, a bytes-like object or a real number, not NoneType") ∧
      Version.parse "3.9" ≠ Except.ok { major := 3, minor := 9, patch := 0 } ∧
      Version.parse "3.9.7" = Except.ok { major := 3, minor := 9, patch := 7 } ∧
      Version.parse "abc" = Except.error (PyErr.valueError "Invalid version string: abc") := by
  refine ⟨by decide, by decide, by decide, by decide, by decide⟩

/-- Claim C2.  `parent_dirs` yields a finite sequence (a `List` in the
model, so finiteness is inherent — the recursion is structural, hence
the walk cannot loop forever on any root representation) whose first
element is the (resolved) starting path and whose last element is the
anchor `[]`, the directory that is its own parent. -/
theorem c2_parent_dirs_first_and_last :
    ∀ p : List String, ∃ mid front,
      parent_dirs p = p :: mid ∧ parent_dirs p = front ++ [[]] := by
  intro p
  induction p with
  | nil => exact ⟨[], [], rfl, rfl⟩
  | cons c cs ih =>
    obtain ⟨mid, front, _hmid, hfront⟩ := ih
    refine ⟨parent_dirs cs, (c :: cs) :: front, rfl, ?_⟩
    show (c :: cs) :: parent_dirs cs = ((c :: cs) :: front) ++ [[]]
    rw [List.cons_append, ← hfront]

/-- Claim C3.  When the closest map key agrees with the input in major
and minor but the input's exact string form is not itself a key of the
map, `pyver_to_mayaver` returns no match: it never substitutes the
closest key's release for an input with a different patch. -/
theorem c3_no_exact_key_no_match :
    ∀ (installed : List Int) (v c d : Version),
      selectClosest v py_to_maya_keys = some (c, d) →
      v.major = c.major → v.minor = c.minor →
      mapGet py_to_maya_map (Version.str v) = none →
      pyver_to_mayaver installed v = none := by
  intro installed v c d hsel h1 h2 hmap
  unfold pyver_to_mayaver
  rw [hsel]
  simp only [if_pos (And.intro h1 h2), hmap]
  rfl

theorem c3_no_exact_key_no_match_witness :
    pyver_to_mayaver [2022, 2023] { major := 3, minor := 9, patch := 2 } = none := by
  exact c3_no_exact_key_no_match [2022, 2023] { major := 3, minor := 9, patch := 2 }
    { major := 3, minor := 9, patch := 7 } { major := 0, minor := 0, patch := 5 }
    (by decide) (by decide) (by decide) (by decide)

/-- Claim C4.  Whenever `pyver_to_mayaver` returns a release `r`, that
release is the map entry of a key agreeing with the input in both major
and minor (in fact the key is the input's own string form), and `r` is a
member of the installed versions; a major/minor-mismatched key or an
uninstalled release is never returned. -/
theorem c4_result_gate_and_installed :
    ∀ (installed : List Int) (v : Version) (r : Int),
      pyver_to_mayaver installed v = some r →
      ∃ kv : Version, kv.major = v.major ∧ kv.minor = v.minor ∧
        (Version.str kv, r) ∈ py_to_maya_map ∧ r ∈ installed := by
  intro installed v r h
  unfold pyver_to_mayaver at h
  cases hsel : selectClosest v py_to_maya_keys with
  | none => rw [hsel] at h; cases h
  | some cd =>
    obtain ⟨c, d⟩ := cd
    rw [hsel] at h
    dsimp only at h
    by_cases hg : v.major = c.major ∧ v.minor = c.minor
    · rw [if_pos hg] at h
      cases he : ensure_installed installed (mapGet py_to_maya_map (Version.str v)) with
      | none => rw [he] at h; cases h
      | some m =>
        rw [he] at h
        simp only [Option.some.injEq] at h
        subst h
        obtain ⟨hmap, hin⟩ := ensure_installed_some installed _ m he
        exact ⟨v, rfl, rfl, mapGet_mem _ _ _ hmap, hin⟩
    · rw [if_neg hg] at h; cases h

theorem Version.lt_irrefl (a : Version) : ¬ Version.lt a a := by
  unfold Version.lt; omega

theorem Version.lt_trans {a b c : Version} :
    Version.lt a b → Version.lt b c → Version.lt a c := by
  intro h1 h2
  unfold Version.lt at h1 h2 ⊢
  omega

theorem Version.lt_of_not_lt_of_lt {a b c : Version} :
    ¬ Version.lt a b → Version.lt a c → Version.lt b c := by
  intro h1 h2
  unfold Version.lt at h1 h2 ⊢
  omega

theorem Version.lt_of_lt_of_not_lt {a b c : Version} :
    Version.lt a b → ¬ Version.lt c b → Version.lt a c := by
  intro h1 h2
  unfold Version.lt at h1 h2 ⊢
  omega

theorem foldl_closestStep_eq (v : Version) : ∀ (ks : List Version) (c : Version),
    ks.foldl (closestStep v) (some (c, Version.distance v c)) =
      some (runMin v c ks, Version.distance v (runMin v c ks)) := by
  intro ks
  induction ks with
  | nil => intro c; rfl
  | cons k ks ih =>
    intro c
    by_cases h : Version.lt (Version.distance v k) (Version.distance v c)
    · simp only [List.foldl_cons, closestStep, if_pos h, runMin, ih]
    · simp only [List.foldl_cons, closestStep, if_neg h, runMin, ih]

theorem selectClosest_cons (v k : Version) (ks : List Version) :
    selectClosest v (k :: ks) =
      some (runMin v k ks, Version.distance v (runMin v k ks)) := by
  unfold selectClosest
  rw [List.foldl_cons]
  exact foldl_closestStep_eq v ks k

theorem runMin_spec (v : Version) : ∀ (ks : List Version) (c : Version),
    ∃ pre post,
      c :: ks = pre ++ runMin v c ks :: post ∧
      (∀ k ∈ pre,
        Version.lt (Version.distance v (runMin v c ks)) (Version.distance v k)) ∧
      (∀ k ∈ c :: ks,
        ¬ Version.lt (Version.distance v k) (Version.distance v (runMin v c ks))) := by
  intro ks
  induction ks with
  | nil =>
    intro c
    refine ⟨[], [], rfl, by simp, ?_⟩
    intro k hk
    rw [List.mem_singleton] at hk
    subst hk
    exact Version.lt_irrefl _
  | cons k ks ih =>
    intro c
    by_cases h : Version.lt (Version.distance v k) (Version.distance v c)
    · have hr : runMin v c (k :: ks) = runMin v k ks := by
        simp only [runMin, if_pos h]
      rw [hr]
      obtain ⟨pre, post, hdec, hpre, hmin⟩ := ih k
      have hkmem : k ∈ k :: ks := List.mem_cons_self _ _
      refine ⟨c :: pre, post, ?_, ?_, ?_⟩
      · rw [List.cons_append, ← hdec]
      · intro x hx
        rcases List.mem_cons.mp hx with rfl | hx
        · exact Version.lt_of_not_lt_of_lt (hmin k hkmem) h
        · exact hpre x hx
      · intro x hx
        rcases List.mem_cons.mp hx with rfl | hx
        · intro hcr
          exact hmin k hkmem (Version.lt_trans h hcr)
        · exact hmin x hx
    · have hr : runMin v c (k :: ks) = runMin v c ks := by
        simp only [runMin, if_neg h]
      rw [hr]
      obtain ⟨pre, post, hdec, hpre, hmin⟩ := ih c
      cases pre with
      | nil =>
        simp only [List.nil_append, List.cons.injEq] at hdec
        obtain ⟨hc, hpost⟩ := hdec
        refine ⟨[], k :: post, ?_, by simp, ?_⟩
        · rw [List.nil_append, ← hc, hpost]
        · intro x hx
          rcases List.mem_cons.mp hx with rfl | hx
          · exact hmin x (List.mem_cons_self _ _)
          · rcases List.mem_cons.mp hx with rfl | hx
            · rw [← hc]; exact h
            · exact hmin x (List.mem_cons_of_mem _ hx)
      | cons p pre2 =>
        simp only [List.cons_append, List.cons.injEq] at hdec
        obtain ⟨hp, hks⟩ := hdec
        subst hp
        have hcpre : Version.lt (Version.distance v (runMin v c ks)) (Version.distance v c) :=
          hpre c (List.mem_cons_self _ _)
        refine ⟨c :: k :: pre2, post, ?_, ?_, ?_⟩
        · rw [List.cons_append, List.cons_append, ← hks]
        · intro x hx
          rcases List.mem_cons.mp hx with rfl | hx
          · exact hcpre
          · rcases List.mem_cons.mp hx with rfl | hx
            · exact Version.lt_of_lt_of_not_lt hcpre h
            · exact hpre x (List.mem_cons_of_mem _ hx)
        · intro x hx
          rcases List.mem_cons.mp hx with rfl | hx
          · exact hmin x (List.mem_cons_self _ _)
          · rcases List.mem_cons.mp hx with rfl | hx
            · intro hxr
              exact h (Version.lt_trans hxr hcpre)
            · exact hmin x (List.mem_cons_of_mem _ hx)

/-- Claim C5.  For every input version, the key selected by the
closest-key loop of `pyver_to_mayaver` (over the parsed keys of
`py_to_maya_map`, in insertion order) attains the minimal
`Version.distance` to the input under the dataclass lexicographic order
— major differences dominate minor, which dominate patch — and every
key inserted before the selected one has strictly greater distance, so
on ties the earliest-inserted key wins and the selection (a pure
function) is deterministic. -/
theorem c5_closest_key_first_min :
    ∀ v : Version, ∃ c pre post,
      selectClosest v py_to_maya_keys = some (c, Version.distance v c) ∧
      py_to_maya_keys = pre ++ c :: post ∧
      (∀ k ∈ pre, Version.lt (Version.distance v c) (Version.distance v k)) ∧
      (∀ k ∈ py_to_maya_keys,
        ¬ Version.lt (Version.distance v k) (Version.distance v c)) := by
  intro v
  obtain ⟨pre, post, hdec, hpre, hmin⟩ :=
    runMin_spec v
      [{ major := 2, minor := 7, patch := 18 }, { major := 3, minor := 7, patch := 9 },
       { major := 3, minor := 9, patch := 7 }]
      { major := 2, minor := 7, patch := 11 }
  refine ⟨runMin v { major := 2, minor := 7, patch := 11 }
      [{ major := 2, minor := 7, patch := 18 }, { major := 3, minor := 7, patch := 9 },
       { major := 3, minor := 9, patch := 7 }], pre, post, ?_, ?_, hpre, ?_⟩
  · rw [py_to_maya_keys_eq]
    exact selectClosest_cons v _ _
  · rw [py_to_maya_keys_eq]
    exact hdec
  · rw [py_to_maya_keys_eq]
    exact hmin

theorem c4_result_gate_and_installed_witness :
    ∃ kv : Version, kv.major = 3 ∧ kv.minor = 9 ∧
      (Version.str kv, 2023) ∈ py_to_maya_map ∧ (2023 : Int) ∈ [2022, 2023] := by
  exact c4_result_gate_and_installed [2022, 2023] { major := 3, minor := 9, patch := 7 } 2023
    (by decide)

theorem chainA_append_success (installed : List Int) :
    ∀ (ps₁ : List (Except PyErr (Option Version))) (v : Version) (m : Int)
      (ps₂ : List (Except PyErr (Option Version))),
      (∀ p ∈ ps₁, p = .ok none ∨
        ∃ v₀, p = .ok (some v₀) ∧ pyver_to_mayaver installed v₀ = none) →
      pyver_to_mayaver installed v = some m →
      chainA installed (ps₁ ++ .ok (some v) :: ps₂) = .ok (some m) := by
  intro ps₁
  induction ps₁ with
  | nil =>
    intro v m ps₂ _ hm
    simp only [List.nil_append, chainA, hm]
  | cons p ps ih =>
    intro v m ps₂ hall hm
    have hrest : ∀ q ∈ ps, q = .ok none ∨
        ∃ v₀, q = .ok (some v₀) ∧ pyver_to_mayaver installed v₀ = none :=
      fun q hq => hall q (List.mem_cons_of_mem _ hq)
    rcases hall p (List.mem_cons_self _ _) with rfl | ⟨v₀, rfl, h0⟩
    · simp only [List.cons_append, chainA]
      exact ih v m ps₂ hrest hm
    · simp only [List.cons_append, chainA, h0]
      exact ih v m ps₂ hrest hm

/-- Claim C6.  `resolve_version` evaluates the chain A probes in order:
as soon as one probe yields a version for which the nearest-match
resolver succeeds, that release is returned, and the value of every
later chain A probe and of the whole chain B (`mayaPin` and the
installed-maximum fallback) is irrelevant — the later probes and chain B
appear only as universally quantified parameters on the left of the
returned result. -/
theorem c6_chain_a_short_circuit :
    ∀ (installed : List Int) (ps₁ : List (Except PyErr (Option Version))) (v : Version)
      (m : Int) (ps₂ : List (Except PyErr (Option Version)))
      (mayaPin : Except PyErr (Option Int)),
      (∀ p ∈ ps₁, p = .ok none ∨
        ∃ v₀, p = .ok (some v₀) ∧ pyver_to_mayaver installed v₀ = none) →
      pyver_to_mayaver installed v = some m →
      resolve_version (ps₁ ++ .ok (some v) :: ps₂) mayaPin installed = .ok (some m) := by
  intro installed ps₁ v m ps₂ mayaPin hall hm
  have hA := chainA_append_success installed ps₁ v m ps₂ hall hm
  unfold resolve_version
  rw [hA]

theorem c6_chain_a_short_circuit_witness :
    resolve_version
        [Except.ok none, Except.ok (some { major := 3, minor := 9, patch := 7 }),
         Except.error (PyErr.valueError "a later probe that would raise")]
        (Except.ok (some 2020)) [2023] = Except.ok (some 2023) := by
  exact c6_chain_a_short_circuit [2023] [Except.ok none]
    { major := 3, minor := 9, patch := 7 } 2023
    [Except.error (PyErr.valueError "a later probe that would raise")]
    (Except.ok (some 2020))
    (by
      intro p hp
      rw [List.mem_singleton] at hp
      subst hp
      exact Or.inl rfl)
    (by decide)

theorem pyver_to_mayaver_nil (v : Version) : pyver_to_mayaver [] v = none := by
  unfold pyver_to_mayaver
  cases hsel : selectClosest v py_to_maya_keys with
  | none => rfl
  | some cd =>
    obtain ⟨c, d⟩ := cd
    dsimp only
    by_cases hg : v.major = c.major ∧ v.minor = c.minor
    · rw [if_pos hg]
      cases hm : mapGet py_to_maya_map (Version.str v) with
      | none => rfl
      | some m => simp [ensure_installed]
    · rw [if_neg hg]

theorem chainA_all_ok (installed : List Int) :
    ∀ probes, (∀ p ∈ probes, ∃ o, p = Except.ok o) →
      ∃ r, chainA installed probes = .ok r := by
  intro probes
  induction probes with
  | nil => intro _; exact ⟨none, rfl⟩
  | cons p ps ih =>
    intro h
    obtain ⟨o, rfl⟩ := h p (List.mem_cons_self _ _)
    have hrest := fun q hq => h q (List.mem_cons_of_mem _ hq)
    cases o with
    | none => simpa only [chainA] using ih hrest
    | some v =>
      cases hm : pyver_to_mayaver installed v with
      | some m => exact ⟨some m, by simp only [chainA, hm]⟩
      | none =>
        obtain ⟨r, hr⟩ := ih hrest
        exact ⟨r, by simp only [chainA, hm]; exact hr⟩

theorem chainA_nil_installed :
    ∀ probes, (∀ p ∈ probes, ∃ o, p = Except.ok o) → chainA [] probes = .ok none := by
  intro probes
  induction probes with
  | nil => intro _; rfl
  | cons p ps ih =>
    intro h
    obtain ⟨o, rfl⟩ := h p (List.mem_cons_self _ _)
    have hrest := fun q hq => h q (List.mem_cons_of_mem _ hq)
    cases o with
    | none => simpa only [chainA] using ih hrest
    | some v =>
      simp only [chainA, pyver_to_mayaver_nil v]
      exact ih hrest

/-- Claim C7.  For probes that do not themselves raise: the overall
resolver fails exactly when the `.maya-version` pin probe yields nothing
and zero releases are installed (note that with zero installed releases
no chain A probe can resolve, so this is total exhaustion of both
chains), and that failure is the hard `ValueError` raised by `max()` on
the empty installed list — a user-visible error, never a silent `None`
(the resolver never returns `.ok none`). -/
theorem c7_total_exhaustion :
    ∀ (probes : List (Except PyErr (Option Version))) (mayaPin : Except PyErr (Option Int))
      (installed : List Int),
      (∀ p ∈ probes, ∃ o, p = Except.ok o) →
      (∃ o, mayaPin = Except.ok o) →
      ((resolve_version probes mayaPin installed =
          .error (.valueError "max() arg is an empty sequence")) ↔
        (mayaPin = Except.ok none ∧ installed = [])) ∧
      resolve_version probes mayaPin installed ≠ Except.ok none := by
  intro probes mayaPin installed hprobes hpin
  obtain ⟨r, hA⟩ := chainA_all_ok installed probes hprobes
  obtain ⟨o, rfl⟩ := hpin
  cases r with
  | some m =>
    have hv : resolve_version probes (Except.ok o) installed = .ok (some m) := by
      unfold resolve_version; rw [hA]
    constructor
    · constructor
      · intro h; rw [hv] at h; cases h
      · rintro ⟨_, rfl⟩
        rw [chainA_nil_installed probes hprobes] at hA
        cases hA
    · rw [hv]; intro h; cases Except.ok.inj h
  | none =>
    cases o with
    | some m =>
      have hv : resolve_version probes (Except.ok (some m)) installed = .ok (some m) := by
        unfold resolve_version; rw [hA]
      constructor
      · constructor
        · intro h; rw [hv] at h; cases h
        · rintro ⟨hpe, _⟩; cases Option.some_ne_none m (Except.ok.inj hpe)
      · rw [hv]; intro h; cases Except.ok.inj h
    | none =>
      cases installed with
      | nil =>
        have hv : resolve_version probes (Except.ok none) ([] : List Int) =
            .error (.valueError "max() arg is an empty sequence") := by
          unfold resolve_version; rw [hA]; rfl
        refine ⟨⟨fun _ => ⟨rfl, rfl⟩, fun _ => hv⟩, ?_⟩
        rw [hv]; intro h; cases h
      | cons a as =>
        have hv : resolve_version probes (Except.ok none) (a :: as) =
            .ok (some (List.foldl max a as)) := by
          unfold resolve_version; rw [hA]; rfl
        constructor
        · constructor
          · intro h; rw [hv] at h; cases h
          · rintro ⟨_, hinst⟩; cases hinst
        · rw [hv]; intro h; cases Except.ok.inj h

theorem c7_total_exhaustion_witness :
    resolve_version [Except.ok none, Except.ok (some { major := 9, minor := 9, patch := 9 })]
        (Except.ok none) [] =
      Except.error (PyErr.valueError "max() arg is an empty sequence") := by
  refine (c7_total_exhaustion
    [Except.ok none, Except.ok (some { major := 9, minor := 9, patch := 9 })]
    (Except.ok none) [] ?_ ⟨none, rfl⟩).1.mpr ⟨rfl, rfl⟩
  intro p hp
  rcases List.mem_cons.mp hp with rfl | hp
  · exact ⟨none, rfl⟩
  · rw [List.mem_singleton] at hp
    subst hp
    exact ⟨some { major := 9, minor := 9, patch := 9 }, rfl⟩

theorem c8_counterexample :
    py_version_from_python_version (some "") =
        Except.error (PyErr.indexError "list index out of range") ∧
      resolve_version [Except.ok none, Except.ok none, py_version_from_python_version (some "")]
          (Except.ok (some 2023)) [2023] =
        Except.error (PyErr.indexError "list index out of range") ∧
      resolve_version [Except.ok none, Except.ok none, py_version_from_python_version (some "")]
          (Except.ok (some 2023)) [2023] ≠ Except.ok (some 2023) ∧
      resolve_version [Except.ok none, Except.ok none, Except.ok none]
          (Except.ok (some 2023)) [2023] = Except.ok (some 2023) := by
  refine ⟨by decide, by decide, by decide, by decide⟩

/-- Claim C8 (amended).  A found-but-malformed pin file does not behave
as "probe returned no answer": the probe raises (`IndexError` for an
empty file, `ValueError` for a first line that parses as neither a
Version nor an integer) and `resolve_version` propagates the exception
instead of continuing with the next probe in the chain. -/
theorem c8_amended_errors_propagate :
    ∀ (mayaPin : Except PyErr (Option Int)) (installed : List Int),
      py_version_from_python_version (some "") =
          Except.error (PyErr.indexError "list index out of range") ∧
        py_version_from_python_version (some "not a version") =
          Except.error (PyErr.valueError "Invalid version string: not a version") ∧
        maya_version_from_maya_version (some "") =
          Except.error (PyErr.indexError "list index out of range") ∧
        maya_version_from_maya_version (some "banana") =
          Except.error (PyErr.valueError "invalid literal for int() with base 10: banana") ∧
        resolve_version
            [Except.ok none, Except.ok none,
             Except.error (PyErr.indexError "list index out of range")]
            mayaPin installed =
          Except.error (PyErr.indexError "list index out of range") := by
  intro mayaPin installed
  exact ⟨by decide, by decide, by decide, by decide, rfl⟩

theorem c9_counterexample :
    main ["2023"] [Except.ok none, Except.ok none, Except.ok none] (Except.ok none) [] =
        Except.error (PyErr.valueError "max() arg is an empty sequence") ∧
      main ["2023"] [Except.ok none, Except.ok none, Except.ok none] (Except.ok none) [] ≠
        Except.ok (2023, []) := by
  refine ⟨by decide, by decide⟩

/-- Claim C9 (amended).  When the first argument parses as an integer
and `resolve_version` completes without raising, `main` launches
`abs(int(first))` regardless of what the probes resolved to, consuming
the argument and forwarding the rest verbatim.  But `resolve_version`
runs before the override is applied, so when it raises (for example
with zero installed releases and no pins, `max()` of the empty list)
the exception propagates and the override is never applied. -/
theorem c9_amended_override :
    ∀ (a0 : String) (rest : List String) (n : Int)
      (probes : List (Except PyErr (Option Version))) (mayaPin : Except PyErr (Option Int))
      (installed : List Int) (r : Option Int),
      pyInt a0 = some n →
      resolve_version probes mayaPin installed = Except.ok r →
      main (a0 :: rest) probes mayaPin installed = Except.ok ((n.natAbs : Int), rest) := by
  intro a0 rest n probes mayaPin installed r hint hres
  simp only [main, hres, hint]

theorem c9_amended_override_witness :
    main ["-2023", "script.py"] [Except.ok none, Except.ok none, Except.ok none]
        (Except.ok none) [2022] = Except.ok (2023, ["script.py"]) := by
  exact c9_amended_override "-2023" ["script.py"] (-2023)
    [Except.ok none, Except.ok none, Except.ok none] (Except.ok none) [2022] (some 2022)
    (by decide) (by decide)

/-- Claim C10.  When chain A produces nothing and the `.maya-version`
pin probe yields an integer `n`, `resolve_version` returns `n` directly:
no `ensure_installed` / `installed_maya_versions` check is applied to
chain B's pin result, so an uninstalled release is returned unchanged
(the witness instantiates `installed := []`). -/
theorem c10_maya_pin_not_installation_checked :
    ∀ (probes : List (Except PyErr (Option Version))) (installed : List Int) (n : Int),
      chainA installed probes = Except.ok none →
      resolve_version probes (Except.ok (some n)) installed = Except.ok (some n) := by
  intro probes installed n h
  unfold resolve_version
  rw [h]

theorem c10_maya_pin_not_installation_checked_witness :
    resolve_version [Except.ok none] (Except.ok (some 2019)) [] = Except.ok (some 2019) :=
  c10_maya_pin_not_installation_checked [Except.ok none] [] 2019 rfl

end Mayapy
